import Mathlib

/-!
Verification of the complexity / aggregation engine of `src/complexity.cc`.

The C++ code works on `double`; we model it over the exact reals `ℝ`
(floating-point rounding idealized away), `int` sizes as `ℤ`, and the
`CHECK_*` fail-fast macros as `Option`-valued functions where `none`
means "contract violation, computation aborted".
-/

namespace Complexity

/-- The growth-curve enumeration `BigO` of the source
(`oNone, o1, oN, oNSquared, oNCubed, oLogN, oNLogN, oAuto`). -/
inductive BigO where
  | oNone
  | o1
  | oN
  | oNSquared
  | oNCubed
  | oLogN
  | oNLogN
  | oAuto
  deriving DecidableEq, Repr

open BigO

/-- Function `FittingCurve` from `complexity.cc` lines 30-46: maps a `BigO` tag to the
growth function `int -> double`; the `default` case (covering `o1`, `oNone`,
`oAuto`) returns the constant-1 function. -/
noncomputable def FittingCurve : BigO → ℤ → ℝ
  | .oN => fun n => (n : ℝ)
  | .oNSquared => fun n => (n : ℝ) * (n : ℝ)
  | .oNCubed => fun n => (n : ℝ) * (n : ℝ) * (n : ℝ)
  | .oLogN => fun n => Real.logb 2 (n : ℝ)
  | .oNLogN => fun n => (n : ℝ) * Real.logb 2 (n : ℝ)
  | _ => fun _ => 1

/-- The `LeastSq` result struct: leading coefficient, normalized RMS and the
chosen curve tag (default-constructed as `coef = 0, rms = 0, complexity = oNone`). -/
structure LeastSq where
  coef : ℝ := 0
  rms : ℝ := 0
  complexity : BigO := BigO.oNone

/-- The accumulation loop of `CalculateLeastSq` (lines 99-105): one pass over
the paired `(n_i, time_i)` data accumulating
`(sigma_gn, sigma_gn_squared, sigma_time, sigma_time_gn)`. -/
noncomputable def sigmaAcc (n : List ℤ) (time : List ℝ) (g : ℤ → ℝ) :
    ℝ × ℝ × ℝ × ℝ :=
  (n.zip time).foldl
    (fun s p =>
      let gn := g p.1
      (s.1 + gn, s.2.1 + gn * gn, s.2.2.1 + p.2, s.2.2.2 + p.2 * gn))
    (0, 0, 0, 0)

/-- Function `CalculateLeastSq` from `complexity.cc` lines 90-124: closed-form
least-squares coefficient `sigma_time_gn / sigma_gn_squared`, then the RMS of
residuals normalized by the mean of the observed times.  The `complexity`
field of the result keeps its default `oNone`. -/
noncomputable def CalculateLeastSq (n : List ℤ) (time : List ℝ) (g : ℤ → ℝ) :
    LeastSq :=
  let s := sigmaAcc n time g
  let coef := s.2.2.2 / s.2.1
  let rmsSum :=
    (n.zip time).foldl (fun acc p => acc + (p.2 - coef * g p.1) ^ 2) 0
  let mean := s.2.2.1 / (n.length : ℝ)
  { coef := coef
    rms := Real.sqrt (rmsSum / (n.length : ℝ)) / mean
    complexity := BigO.oNone }

/-- The candidate list `fit_curves` of `MinimalLeastSq` (lines 143-144):
`{oLogN, oN, oNLogN, oNSquared, oNCubed}`. -/
def fit_curves : List BigO :=
  [BigO.oLogN, BigO.oN, BigO.oNLogN, BigO.oNSquared, BigO.oNCubed]

/-- A `CalculateLeastSq` result with its `complexity` field set to the curve
tag, as done by `best_fit.complexity = ...` in `MinimalLeastSq`. -/
noncomputable def taggedFit (n : List ℤ) (time : List ℝ) (c : BigO) :
    LeastSq :=
  { CalculateLeastSq n time (FittingCurve c) with complexity := c }

/-- Function `MinimalLeastSq` from `complexity.cc` lines 133-164.  The three `CHECK`
macros (equal lengths, at least two points, curve not `oNone`) abort the
program on failure; this is modelled by returning `none`.  With `oAuto` the
constant curve is taken as default best fit and the five candidate curves are
scanned in order, a candidate replacing the running best only when its RMS is
strictly smaller; with a specific curve that curve's fit is returned. -/
noncomputable def MinimalLeastSq (n : List ℤ) (time : List ℝ)
    (complexity : BigO) : Option LeastSq :=
  if n.length = time.length ∧ 2 ≤ n.length ∧ complexity ≠ BigO.oNone then
    some
      (if complexity = BigO.oAuto then
        fit_curves.foldl
          (fun best_fit fit =>
            let current_fit := CalculateLeastSq n time (FittingCurve fit)
            if current_fit.rms < best_fit.rms then
              { current_fit with complexity := fit }
            else best_fit)
          (taggedFit n time BigO.o1)
      else taggedFit n time complexity)
  else none

/-- Scan a list keeping the running best, replacing it only on a strictly
smaller RMS, so the earliest-evaluated element wins ties. -/
noncomputable def firstStrictMin (b : LeastSq) (l : List LeastSq) : LeastSq :=
  l.foldl (fun best x => if x.rms < best.rms then x else best) b

/-- The auto-mode evaluation order stated by the spec: constant first as the
default baseline, then logarithmic, linear, linearithmic, quadratic, cubic. -/
def specAutoOrder : List BigO :=
  [BigO.o1, BigO.oLogN, BigO.oN, BigO.oNLogN, BigO.oNSquared, BigO.oNCubed]

/-- The spec's description of auto fitting: evaluate the constant curve as the
baseline, then the remaining five curves in order, keeping the result with
the lowest normalized RMS under a strictly-smaller-replaces policy. -/
noncomputable def specAutoFit (n : List ℤ) (time : List ℝ) : LeastSq :=
  firstStrictMin (taggedFit n time BigO.o1)
    ((specAutoOrder.drop 1).map (taggedFit n time))

/-- Modelled from the spec: the time-unit scale factor lookup of §6, supplied
by `benchmark_api.h` which is not under `src/`; it maps a time-unit tag to a
numeric multiplier.  Only the fact that `ComputeBigO` divides by it matters
here. -/
inductive TimeUnit where
  | kNanosecond
  | kMicrosecond
  | kMillisecond
  deriving DecidableEq, Repr

/-- Modelled from the spec: the numeric multiplier for each time-unit tag. -/
noncomputable def GetTimeUnitMultiplier : TimeUnit → ℝ
  | .kNanosecond => 10 ^ 9
  | .kMicrosecond => 10 ^ 6
  | .kMillisecond => 10 ^ 3

/-- The `BenchmarkReporter::Run` measurement record (spec §3; declared in
benchmark headers outside `src/`): exactly the fields `complexity.cc` reads
or writes, with their default-constructed values. -/
structure Run where
  benchmark_name : String := ""
  report_label : String := ""
  iterations : ℤ := 1
  real_accumulated_time : ℝ := 0
  cpu_accumulated_time : ℝ := 0
  bytes_per_second : ℝ := 0
  items_per_second : ℝ := 0
  complexity : BigO := BigO.oNone
  complexity_n : ℤ := 0
  report_big_o : Bool := false
  report_rms : Bool := false
  error_occurred : Bool := false
  time_unit : TimeUnit := TimeUnit.kNanosecond

instance : Inhabited Run := ⟨{}⟩

/-- Modelled from the spec: the streaming accumulator `Stat1_d` of `stat.h`,
which is not under `src/`.  Its state is the running weighted sum, weighted
sum of squares and total weight (spec §3, §4.1). -/
structure Stat1 where
  sum : ℝ := 0
  sumSq : ℝ := 0
  weight : ℝ := 0

/-- Modelled from the spec: `combine(value, weight)` folds one weighted
observation into the running sums (§4.1). -/
noncomputable def Stat1.combine (s : Stat1) (v w : ℝ) : Stat1 :=
  { sum := s.sum + v * w
    sumSq := s.sumSq + v * v * w
    weight := s.weight + w }

/-- Modelled from the spec: `mean()` is weighted-sum / weight-total (§4.1). -/
noncomputable def Stat1.Mean (s : Stat1) : ℝ := s.sum / s.weight

/-- Modelled from the spec: `stddev()` is the square root of the weighted
variance estimate without Bessel correction (§4.1, §9), special-cased to
zero when the total sample count is at most 1. -/
noncomputable def Stat1.StdDev (s : Stat1) : ℝ :=
  if s.weight ≤ 1 then 0
  else Real.sqrt (s.sumSq / s.weight - s.Mean * s.Mean)

/-- Per-iteration real time `run.real_accumulated_time / run.iterations`. -/
noncomputable def perIterReal (r : Run) : ℝ :=
  r.real_accumulated_time / (r.iterations : ℝ)

/-- Per-iteration CPU time `run.cpu_accumulated_time / run.iterations`. -/
noncomputable def perIterCpu (r : Run) : ℝ :=
  r.cpu_accumulated_time / (r.iterations : ℝ)

/-- The accumulation loop of `ComputeStats` lines 190-201 for one stream:
every error-free record's value, weighted by its iteration count, is folded
into an accumulator; error records are skipped by `continue`. -/
noncomputable def statOf (f : Run → ℝ) (reports : List Run) : Stat1 :=
  (reports.filter fun r => !r.error_occurred).foldl
    (fun s r => s.combine (f r) (r.iterations : ℝ)) {}

/-- Function `ComputeStats` from `complexity.cc` lines 166-237.  If fewer than two
error-free records remain the empty result is returned before any check runs;
otherwise every record (error-flagged ones included) must match the first
record's benchmark name and iteration count (`CHECK_EQ`, modelled as `none`
on failure), the four streams are accumulated over the error-free records,
and the `_mean` / `_stddev` records are emitted. -/
noncomputable def ComputeStats (reports : List Run) : Option (List Run) :=
  let error_count := reports.countP fun r => r.error_occurred
  if reports.length - error_count < 2 then some []
  else
    match reports with
    | [] => some []
    | r0 :: _ =>
      if ∀ r ∈ reports,
          r0.benchmark_name = r.benchmark_name ∧ r0.iterations = r.iterations
      then
        let run_iterations := r0.iterations
        let real_stat := statOf perIterReal reports
        let cpu_stat := statOf perIterCpu reports
        let items_stat := statOf (fun r => r.items_per_second) reports
        let bytes_stat := statOf (fun r => r.bytes_per_second) reports
        let label :=
          if ∀ r ∈ reports, r.report_label = r0.report_label then
            r0.report_label
          else ""
        let mean_data : Run :=
          { benchmark_name := r0.benchmark_name ++ "_mean"
            iterations := run_iterations
            real_accumulated_time := real_stat.Mean * (run_iterations : ℝ)
            cpu_accumulated_time := cpu_stat.Mean * (run_iterations : ℝ)
            bytes_per_second := bytes_stat.Mean
            items_per_second := items_stat.Mean
            report_label := label }
        let stddev_data : Run :=
          { benchmark_name := r0.benchmark_name ++ "_stddev"
            report_label := label
            iterations := 0
            real_accumulated_time := real_stat.StdDev
            cpu_accumulated_time := cpu_stat.StdDev
            bytes_per_second := bytes_stat.StdDev
            items_per_second := items_stat.StdDev }
        some [mean_data, stddev_data]
      else none

/-- The expression `benchmark_name.substr(0, benchmark_name.find('/'))`: the portion of the
name before the first slash, or the whole name when there is none. -/
def nameBeforeSlash (s : String) : String := s.takeWhile fun c => c ≠ '/'

/-- Function `ComputeBigO` from `complexity.cc` lines 239-294: early empty result for
fewer than two records, then every record's size tag and per-iteration times
are pushed into the fitting vectors (no error filtering, no name or
iteration check), CPU time is fitted with the requested curve, real time is
re-fitted forcing the CPU-chosen curve, and the `_BigO` / `_RMS` records are
emitted. -/
noncomputable def ComputeBigO (reports : List Run) : Option (List Run) :=
  if reports.length < 2 then some []
  else
    match reports with
    | [] => some []
    | r0 :: _ =>
      let n := reports.map fun r => r.complexity_n
      let real_time := reports.map perIterReal
      let cpu_time := reports.map perIterCpu
      match MinimalLeastSq n cpu_time r0.complexity with
      | none => none
      | some result_cpu =>
        match MinimalLeastSq n real_time result_cpu.complexity with
        | none => none
        | some result_real =>
          let benchmark_name := nameBeforeSlash r0.benchmark_name
          let multiplier := GetTimeUnitMultiplier r0.time_unit
          let big_o : Run :=
            { benchmark_name := benchmark_name ++ "_BigO"
              iterations := 0
              real_accumulated_time := result_real.coef
              cpu_accumulated_time := result_cpu.coef
              report_big_o := true
              complexity := result_cpu.complexity
              report_label := r0.report_label }
          let rms : Run :=
            { benchmark_name := benchmark_name ++ "_RMS"
              report_label := r0.report_label
              iterations := 0
              real_accumulated_time := result_real.rms / multiplier
              cpu_accumulated_time := result_cpu.rms / multiplier
              report_rms := true
              complexity := result_cpu.complexity }
          some [big_o, rms]

/-- Concrete sizes vector used by witness theorems. -/
def wN : List ℤ := [1, 2]

/-- Concrete times vector used by witness theorems. -/
noncomputable def wT : List ℝ := [1, 2]

/-- Concrete growth function used by witness theorems. -/
noncomputable def wG : ℤ → ℝ := fun x => (x : ℝ)

/-- A record that carries an error flag, for witnesses. -/
noncomputable def eRun : Run := { error_occurred := true }

/-- A repetition record with a given accumulated real time at 100
iterations, matching the spec's worked example. -/
noncomputable def repRun (x : ℝ) : Run :=
  { real_accumulated_time := x, iterations := 100 }

/-- A record named "A" with 1 iteration, size tag 1 and unit times. -/
noncomputable def mmA : Run :=
  { benchmark_name := "A", iterations := 1, complexity := BigO.o1,
    complexity_n := 1, real_accumulated_time := 1, cpu_accumulated_time := 1 }

/-- A record named "B" with 2 iterations, size tag 2 and unit times. -/
noncomputable def mmB : Run :=
  { benchmark_name := "B", iterations := 2, complexity := BigO.o1,
    complexity_n := 2, real_accumulated_time := 1, cpu_accumulated_time := 1 }

/-- Head record for the error-contribution demonstration: linear curve
requested, size 1, times 1, one iteration. -/
noncomputable def c10a : Run :=
  { complexity := BigO.oN, complexity_n := 1, iterations := 1,
    real_accumulated_time := 1, cpu_accumulated_time := 1 }

/-- Error-flagged record with size tag 2. -/
noncomputable def c10err2 : Run :=
  { complexity_n := 2, iterations := 1, real_accumulated_time := 2,
    cpu_accumulated_time := 2, error_occurred := true }

/-- Error-flagged record identical to `c10err2` except its size tag is 3. -/
noncomputable def c10err3 : Run :=
  { complexity_n := 3, iterations := 1, real_accumulated_time := 2,
    cpu_accumulated_time := 2, error_occurred := true }

/-- Head record for the C3 witness: "Foo/8" measured at size 8. -/
noncomputable def fooRun8 : Run :=
  { benchmark_name := "Foo/8", complexity := BigO.o1, complexity_n := 8 }

/-- Second record for the C3 witness: "Foo/16" measured at size 16. -/
noncomputable def fooRun16 : Run :=
  { benchmark_name := "Foo/16", complexity := BigO.o1, complexity_n := 16 }

/-! ### Helper lemmas: the accumulation folds are sums -/

theorem foldl_add_eq_sum {α : Type} (f : α → ℝ) (l : List α) (a : ℝ) :
    l.foldl (fun acc x => acc + f x) a = a + (l.map f).sum := by
  induction l generalizing a with
  | nil => simp
  | cons x xs ih => simp [ih, add_assoc]

theorem sigmaAcc_eq (n : List ℤ) (time : List ℝ) (g : ℤ → ℝ) :
    sigmaAcc n time g =
      (((n.zip time).map fun p => g p.1).sum,
       ((n.zip time).map fun p => g p.1 * g p.1).sum,
       ((n.zip time).map Prod.snd).sum,
       ((n.zip time).map fun p => p.2 * g p.1).sum) := by
  unfold sigmaAcc
  generalize n.zip time = l
  suffices h : ∀ (a b c d : ℝ),
      l.foldl
        (fun s p =>
          let gn := g p.1
          (s.1 + gn, s.2.1 + gn * gn, s.2.2.1 + p.2, s.2.2.2 + p.2 * gn))
        (a, b, c, d) =
      (a + (l.map fun p => g p.1).sum,
       b + (l.map fun p => g p.1 * g p.1).sum,
       c + (l.map Prod.snd).sum,
       d + (l.map fun p => p.2 * g p.1).sum) by
    simpa using h 0 0 0 0
  induction l with
  | nil => intro a b c d; simp
  | cons x xs ih =>
      intro a b c d
      simp only [List.foldl_cons, List.map_cons, List.sum_cons, ih,
        Prod.mk.injEq]
      refine ⟨by ring, by ring, by ring, by ring⟩

theorem zip_map_snd (n : List ℤ) (time : List ℝ) (h : n.length = time.length) :
    (n.zip time).map Prod.snd = time := by
  exact List.map_snd_zip n time (le_of_eq h.symm)

theorem CalculateLeastSq_coef (n : List ℤ) (time : List ℝ) (g : ℤ → ℝ) :
    (CalculateLeastSq n time g).coef =
      ((n.zip time).map fun p => p.2 * g p.1).sum /
        ((n.zip time).map fun p => g p.1 * g p.1).sum := by
  simp [CalculateLeastSq, sigmaAcc_eq]

theorem CalculateLeastSq_rms (n : List ℤ) (time : List ℝ) (g : ℤ → ℝ) :
    (CalculateLeastSq n time g).rms =
      Real.sqrt
          (((n.zip time).map fun p =>
              (p.2 - (CalculateLeastSq n time g).coef * g p.1) ^ 2).sum /
            (n.length : ℝ)) /
        ((((n.zip time).map Prod.snd).sum) / (n.length : ℝ)) := by
  simp only [CalculateLeastSq, sigmaAcc_eq, foldl_add_eq_sum, zero_add]

theorem CalculateLeastSq_complexity (n : List ℤ) (time : List ℝ) (g : ℤ → ℝ) :
    (CalculateLeastSq n time g).complexity = BigO.oNone := rfl

/-- Claim C1: `fit` (`CalculateLeastSq`) returns the coefficient
`c = Σ(time_i · g(n_i)) / Σ(g(n_i)²)` and the normalized RMS
`sqrt(Σ((time_i − c·g(n_i))²) / length) / mean(time)` for equal-length input
vectors of length at least 2. -/
theorem fit_closed_form (n : List ℤ) (time : List ℝ) (g : ℤ → ℝ)
    (hlen : n.length = time.length) (h2 : 2 ≤ n.length) :
    (CalculateLeastSq n time g).coef =
        ((n.zip time).map fun p => p.2 * g p.1).sum /
          (n.map fun x => g x * g x).sum ∧
      (CalculateLeastSq n time g).rms =
        Real.sqrt
            (((n.zip time).map fun p =>
                (p.2 - (CalculateLeastSq n time g).coef * g p.1) ^ 2).sum /
              (n.length : ℝ)) /
          (time.sum / (n.length : ℝ)) := by
  have hfst : (n.zip time).map Prod.fst = n :=
    List.map_fst_zip n time (le_of_eq hlen)
  have hgg : ((n.zip time).map fun p => g p.1 * g p.1).sum =
      (n.map fun x => g x * g x).sum := by
    have : ((n.zip time).map fun p => g p.1 * g p.1) =
        ((n.zip time).map Prod.fst).map fun x => g x * g x := by
      simp [List.map_map, Function.comp]
    rw [this, hfst]
  constructor
  · rw [CalculateLeastSq_coef, hgg]
  · rw [CalculateLeastSq_rms, zip_map_snd n time hlen]

/-- Witness for C1 at `n = [1, 2]`, `time = [1, 2]`, `g x = x`. -/
theorem fit_closed_form_witness :
    (wN.length = wT.length ∧ 2 ≤ wN.length) ∧
      ((CalculateLeastSq wN wT wG).coef =
          ((wN.zip wT).map fun p => p.2 * wG p.1).sum /
            (wN.map fun x => wG x * wG x).sum ∧
        (CalculateLeastSq wN wT wG).rms =
          Real.sqrt
              (((wN.zip wT).map fun p =>
                  (p.2 - (CalculateLeastSq wN wT wG).coef * wG p.1) ^ 2).sum /
                (wN.length : ℝ)) /
            (wT.sum / (wN.length : ℝ))) :=
  ⟨⟨by simp [wN, wT], by simp [wN]⟩,
    fit_closed_form wN wT wG (by simp [wN, wT]) (by simp [wN])⟩

/-! ### The auto-fit scan -/

theorem firstStrictMin_rms_le (l : List LeastSq) (b : LeastSq) :
    (firstStrictMin b l).rms ≤ b.rms ∧
      ∀ x ∈ l, (firstStrictMin b l).rms ≤ x.rms := by
  induction l generalizing b with
  | nil => exact ⟨le_refl _, by simp⟩
  | cons x xs ih =>
      have hstep : firstStrictMin b (x :: xs) =
          firstStrictMin (if x.rms < b.rms then x else b) xs := rfl
      obtain ⟨h1, h2⟩ := ih (if x.rms < b.rms then x else b)
      have hb : (if x.rms < b.rms then x else b).rms ≤ b.rms := by
        by_cases hx : x.rms < b.rms
        · simp only [hx, if_true]
          exact le_of_lt hx
        · simp [hx]
      have hxle : (if x.rms < b.rms then x else b).rms ≤ x.rms := by
        by_cases hx : x.rms < b.rms
        · simp [hx]
        · simp only [hx, if_false]
          exact le_of_not_lt hx
      rw [hstep]
      refine ⟨le_trans h1 hb, ?_⟩
      intro y hy
      rcases List.mem_cons.1 hy with hy | hy
      · subst hy
        exact le_trans h1 hxle
      · exact h2 y hy

theorem firstStrictMin_eq_base (l : List LeastSq) (b : LeastSq)
    (h : ∀ x ∈ l, b.rms ≤ x.rms) : firstStrictMin b l = b := by
  induction l with
  | nil => rfl
  | cons x xs ih =>
      have hx : ¬x.rms < b.rms := not_lt.2 (h x (List.mem_cons_self x xs))
      have hstep : firstStrictMin b (x :: xs) =
          firstStrictMin (if x.rms < b.rms then x else b) xs := rfl
      rw [hstep, if_neg hx]
      exact ih fun y hy => h y (List.mem_cons_of_mem x hy)

theorem firstStrictMin_mem (l : List LeastSq) (b : LeastSq) :
    firstStrictMin b l ∈ b :: l := by
  induction l generalizing b with
  | nil => simp [firstStrictMin]
  | cons x xs ih =>
      have hstep : firstStrictMin b (x :: xs) =
          firstStrictMin (if x.rms < b.rms then x else b) xs := rfl
      rw [hstep]
      rcases List.mem_cons.1 (ih (if x.rms < b.rms then x else b)) with h | h
      · rw [h]
        by_cases hx : x.rms < b.rms
        · simp [hx]
        · simp [hx]
      · exact List.mem_cons_of_mem _ (List.mem_cons_of_mem _ h)

theorem MinimalLeastSq_auto_fold (n : List ℤ) (time : List ℝ) :
    fit_curves.foldl
        (fun best_fit fit =>
          let current_fit := CalculateLeastSq n time (FittingCurve fit)
          if current_fit.rms < best_fit.rms then
            { current_fit with complexity := fit }
          else best_fit)
        (taggedFit n time BigO.o1) =
      firstStrictMin (taggedFit n time BigO.o1)
        (fit_curves.map (taggedFit n time)) := by
  rw [firstStrictMin, List.foldl_map]
  congr 1

/-- Claim C2: with the `oAuto` sentinel, `MinimalLeastSq` evaluates the
constant curve as default baseline and then the five remaining curves in the
order logarithmic, linear, linearithmic, quadratic, cubic, keeping the result
with the lowest normalized RMS under a strictly-smaller-replaces policy so
the earliest-evaluated curve wins ties; with a specific curve it returns that
curve's fit tagged with that curve. -/
theorem autoFit_selection (n : List ℤ) (time : List ℝ) (c : BigO)
    (hlen : n.length = time.length) (h2 : 2 ≤ n.length) :
    MinimalLeastSq n time BigO.oAuto = some (specAutoFit n time) ∧
      (∀ d ∈ specAutoOrder,
        (specAutoFit n time).rms ≤ (taggedFit n time d).rms) ∧
      ((∀ d ∈ specAutoOrder,
          (taggedFit n time BigO.o1).rms ≤ (taggedFit n time d).rms) →
        specAutoFit n time = taggedFit n time BigO.o1) ∧
      (c ≠ BigO.oAuto → c ≠ BigO.oNone →
        MinimalLeastSq n time c = some (taggedFit n time c)) := by
  have hspec : specAutoFit n time =
      firstStrictMin (taggedFit n time BigO.o1)
        (fit_curves.map (taggedFit n time)) := rfl
  have hcons : specAutoOrder = BigO.o1 :: fit_curves := rfl
  refine ⟨?_, ?_, ?_, ?_⟩
  · rw [MinimalLeastSq, if_pos ⟨hlen, h2, by decide⟩, if_pos rfl,
      MinimalLeastSq_auto_fold, hspec]
  · intro d hd
    rw [hspec]
    rw [hcons] at hd
    rcases List.mem_cons.1 hd with hd | hd
    · subst hd
      exact (firstStrictMin_rms_le _ _).1
    · exact (firstStrictMin_rms_le _ _).2 _ (List.mem_map_of_mem _ hd)
  · intro h
    rw [hspec]
    refine firstStrictMin_eq_base _ _ ?_
    intro x hx
    rcases List.mem_map.1 hx with ⟨d, hd, rfl⟩
    exact h d (by rw [hcons]; exact List.mem_cons_of_mem _ hd)
  · intro ha hn
    rw [MinimalLeastSq, if_pos ⟨hlen, h2, hn⟩, if_neg ha]

/-- Witness for C2 at `n = [1, 2]`, `time = [1, 2]`, specific curve `oN`. -/
theorem autoFit_selection_witness :
    (wN.length = wT.length ∧ 2 ≤ wN.length) ∧
      (MinimalLeastSq wN wT BigO.oAuto = some (specAutoFit wN wT) ∧
        (∀ d ∈ specAutoOrder,
          (specAutoFit wN wT).rms ≤ (taggedFit wN wT d).rms) ∧
        ((∀ d ∈ specAutoOrder,
            (taggedFit wN wT BigO.o1).rms ≤ (taggedFit wN wT d).rms) →
          specAutoFit wN wT = taggedFit wN wT BigO.o1) ∧
        (BigO.oN ≠ BigO.oAuto → BigO.oN ≠ BigO.oNone →
          MinimalLeastSq wN wT BigO.oN = some (taggedFit wN wT BigO.oN))) :=
  ⟨⟨by simp [wN, wT], by simp [wN]⟩,
    autoFit_selection wN wT BigO.oN (by simp [wN, wT]) (by simp [wN])⟩

/-! ### Contract checks -/

theorem MinimalLeastSq_none_iff (n : List ℤ) (time : List ℝ) (c : BigO) :
    MinimalLeastSq n time c = none ↔
      ¬(n.length = time.length ∧ 2 ≤ n.length ∧ c ≠ BigO.oNone) := by
  by_cases h : n.length = time.length ∧ 2 ≤ n.length ∧ c ≠ BigO.oNone
  · simp [MinimalLeastSq, h]
  · simp [MinimalLeastSq, h]

/-- Claim C4: a fitting call aborts (returns no result) exactly when the
sizes and times vectors have unequal length, fewer than two points are given,
or the `oNone` sentinel is requested. -/
theorem autoFit_contract_failfast (n : List ℤ) (time : List ℝ) (c : BigO) :
    MinimalLeastSq n time c = none ↔
      (n.length ≠ time.length ∨ n.length < 2 ∨ c = BigO.oNone) := by
  rw [MinimalLeastSq_none_iff]
  simp only [not_and_or, not_le, not_not, ne_eq]

/-- Counterexample to C5 as stated: a singleton list whose record carries the
`oNone` sentinel makes `ComputeBigO` return the empty result silently,
because the fewer-than-two early return precedes every check. -/
theorem computeComplexity_none_singleton :
    ({} : Run).complexity = BigO.oNone ∧
      ComputeBigO [({} : Run)] = some [] :=
  ⟨rfl, by rw [ComputeBigO, if_pos (by simp)]⟩

/-- Claim C5 (amended): with at least two records, calling `ComputeBigO` on
reports whose first record carries the `oNone` complexity sentinel is a
contract violation that aborts; with fewer than two records the early empty
return fires first. -/
theorem computeComplexity_none_aborts (r0 : Run) (rest : List Run)
    (h2 : 2 ≤ (r0 :: rest).length) (hc : r0.complexity = BigO.oNone) :
    ComputeBigO (r0 :: rest) = none := by
  have hlt : ¬(r0 :: rest).length < 2 := not_lt.2 h2
  have hnone : MinimalLeastSq ((r0 :: rest).map fun r => r.complexity_n)
      ((r0 :: rest).map perIterCpu) r0.complexity = none :=
    (MinimalLeastSq_none_iff _ _ _).2 fun h => h.2.2 hc
  simp only [ComputeBigO, if_neg hlt, hnone]

/-- Witness for C5 (amended) on two default-constructed records. -/
theorem computeComplexity_none_aborts_witness :
    (2 ≤ [({} : Run), ({} : Run)].length ∧
        ({} : Run).complexity = BigO.oNone) ∧
      ComputeBigO [({} : Run), ({} : Run)] = none :=
  ⟨⟨by simp, rfl⟩,
    computeComplexity_none_aborts ({} : Run) [({} : Run)] (by simp) rfl⟩

/-- Claim C6: when fewer than two error-free records remain,
`ComputeStats` returns the empty result set, before any other check runs. -/
theorem computeRepetitionStats_below_floor (reports : List Run)
    (h : reports.length - (reports.countP fun r => r.error_occurred) < 2) :
    ComputeStats reports = some [] := by
  simp only [ComputeStats, if_pos h]

/-- Witness for C6: one error-free record among three. -/
theorem computeRepetitionStats_below_floor_witness :
    ([eRun, eRun, ({} : Run)].length -
          ([eRun, eRun, ({} : Run)].countP fun r => r.error_occurred) < 2) ∧
      ComputeStats [eRun, eRun, ({} : Run)] = some [] :=
  ⟨by simp [eRun, List.countP_cons],
    computeRepetitionStats_below_floor _ (by simp [eRun, List.countP_cons])⟩

/-! ### The big-O aggregation -/

theorem MinimalLeastSq_some_complexity (n : List ℤ) (time : List ℝ)
    (c : BigO) (r : LeastSq) (h : MinimalLeastSq n time c = some r) :
    r.complexity ≠ BigO.oNone ∧ r.complexity ≠ BigO.oAuto := by
  rw [MinimalLeastSq] at h
  by_cases hcond : n.length = time.length ∧ 2 ≤ n.length ∧ c ≠ BigO.oNone
  · rw [if_pos hcond] at h
    have hr := Option.some.inj h
    by_cases ha : c = BigO.oAuto
    · rw [if_pos ha, MinimalLeastSq_auto_fold] at hr
      have hmem :=
        firstStrictMin_mem (fit_curves.map (taggedFit n time))
          (taggedFit n time BigO.o1)
      rw [hr] at hmem
      rcases List.mem_cons.1 hmem with hm | hm
      · rw [hm]
        have hproj : (taggedFit n time BigO.o1).complexity = BigO.o1 := rfl
        rw [hproj]
        exact ⟨by decide, by decide⟩
      · rcases List.mem_map.1 hm with ⟨d, hd, hdr⟩
        rw [← hdr]
        have hproj : (taggedFit n time d).complexity = d := rfl
        rw [hproj]
        simp only [fit_curves, List.mem_cons, List.not_mem_nil, or_false]
          at hd
        rcases hd with rfl | rfl | rfl | rfl | rfl <;>
          exact ⟨by decide, by decide⟩
    · rw [if_neg ha] at hr
      rw [← hr]
      have hproj : (taggedFit n time c).complexity = c := rfl
      rw [hproj]
      exact ⟨hcond.2.2, ha⟩
  · rw [if_neg hcond] at h
    exact absurd h (by simp)

/-- Claim C3: with at least two records and a valid requested curve,
`ComputeBigO` fits CPU time with the requested curve, re-fits real time
forcing the CPU-chosen curve, and returns the `_BigO` record (name = portion
of the first record's name before the first slash, plus the suffix) carrying
both coefficients and the CPU-chosen curve, followed by the `_RMS` record
carrying both normalized RMS values divided by the time-unit multiplier. -/
theorem computeComplexity_structure (r0 : Run) (rest : List Run)
    (h2 : 2 ≤ (r0 :: rest).length) (hc : r0.complexity ≠ BigO.oNone) :
    ∃ result_cpu result_real : LeastSq,
      MinimalLeastSq ((r0 :: rest).map fun r => r.complexity_n)
          ((r0 :: rest).map perIterCpu) r0.complexity = some result_cpu ∧
        MinimalLeastSq ((r0 :: rest).map fun r => r.complexity_n)
            ((r0 :: rest).map perIterReal) result_cpu.complexity =
          some result_real ∧
        ComputeBigO (r0 :: rest) = some
          [{ benchmark_name := nameBeforeSlash r0.benchmark_name ++ "_BigO",
             iterations := 0,
             real_accumulated_time := result_real.coef,
             cpu_accumulated_time := result_cpu.coef,
             report_big_o := true,
             complexity := result_cpu.complexity,
             report_label := r0.report_label },
           { benchmark_name := nameBeforeSlash r0.benchmark_name ++ "_RMS",
             report_label := r0.report_label,
             iterations := 0,
             real_accumulated_time :=
               result_real.rms / GetTimeUnitMultiplier r0.time_unit,
             cpu_accumulated_time :=
               result_cpu.rms / GetTimeUnitMultiplier r0.time_unit,
             report_rms := true,
             complexity := result_cpu.complexity }] := by
  have hlen : ((r0 :: rest).map fun r => r.complexity_n).length =
      ((r0 :: rest).map perIterCpu).length := by simp
  have hlen2 : 2 ≤ ((r0 :: rest).map fun r => r.complexity_n).length := by
    simpa using h2
  obtain ⟨rc, hrc⟩ : ∃ rc,
      MinimalLeastSq ((r0 :: rest).map fun r => r.complexity_n)
        ((r0 :: rest).map perIterCpu) r0.complexity = some rc := by
    cases hopt : MinimalLeastSq ((r0 :: rest).map fun r => r.complexity_n)
        ((r0 :: rest).map perIterCpu) r0.complexity with
    | none =>
        exact absurd ((MinimalLeastSq_none_iff _ _ _).1 hopt)
          fun hneg => hneg ⟨hlen, hlen2, hc⟩
    | some rc => exact ⟨rc, rfl⟩
  have hvalidc := MinimalLeastSq_some_complexity _ _ _ _ hrc
  have hlenr : ((r0 :: rest).map fun r => r.complexity_n).length =
      ((r0 :: rest).map perIterReal).length := by simp
  obtain ⟨rr, hrr⟩ : ∃ rr,
      MinimalLeastSq ((r0 :: rest).map fun r => r.complexity_n)
        ((r0 :: rest).map perIterReal) rc.complexity = some rr := by
    cases hopt : MinimalLeastSq ((r0 :: rest).map fun r => r.complexity_n)
        ((r0 :: rest).map perIterReal) rc.complexity with
    | none =>
        exact absurd ((MinimalLeastSq_none_iff _ _ _).1 hopt)
          fun hneg => hneg ⟨hlenr, hlen2, hvalidc.1⟩
    | some rr => exact ⟨rr, rfl⟩
  refine ⟨rc, rr, hrc, hrr, ?_⟩
  have hlt : ¬(r0 :: rest).length < 2 := not_lt.2 h2
  simp only [ComputeBigO, if_neg hlt, hrc, hrr]

/-- Witness for C3 on the records "Foo/8" and "Foo/16". -/
theorem computeComplexity_structure_witness :
    (2 ≤ [fooRun8, fooRun16].length ∧ fooRun8.complexity ≠ BigO.oNone) ∧
      ∃ result_cpu result_real : LeastSq,
        MinimalLeastSq ([fooRun8, fooRun16].map fun r => r.complexity_n)
            ([fooRun8, fooRun16].map perIterCpu) fooRun8.complexity =
          some result_cpu ∧
          MinimalLeastSq ([fooRun8, fooRun16].map fun r => r.complexity_n)
              ([fooRun8, fooRun16].map perIterReal) result_cpu.complexity =
            some result_real ∧
          ComputeBigO [fooRun8, fooRun16] = some
            [{ benchmark_name :=
                 nameBeforeSlash fooRun8.benchmark_name ++ "_BigO",
               iterations := 0,
               real_accumulated_time := result_real.coef,
               cpu_accumulated_time := result_cpu.coef,
               report_big_o := true,
               complexity := result_cpu.complexity,
               report_label := fooRun8.report_label },
             { benchmark_name :=
                 nameBeforeSlash fooRun8.benchmark_name ++ "_RMS",
               report_label := fooRun8.report_label,
               iterations := 0,
               real_accumulated_time :=
                 result_real.rms / GetTimeUnitMultiplier fooRun8.time_unit,
               cpu_accumulated_time :=
                 result_cpu.rms / GetTimeUnitMultiplier fooRun8.time_unit,
               report_rms := true,
               complexity := result_cpu.complexity }] :=
  ⟨⟨by simp, by simp [fooRun8]⟩,
    computeComplexity_structure fooRun8 [fooRun16] (by simp)
      (by simp [fooRun8])⟩

/-! ### Repetition statistics -/

theorem ComputeStats_cons_eq (r0 : Run) (rest : List Run)
    (hfloor : ¬((r0 :: rest).length -
        ((r0 :: rest).countP fun r => r.error_occurred) < 2))
    (hsame : ∀ r ∈ r0 :: rest,
      r0.benchmark_name = r.benchmark_name ∧ r0.iterations = r.iterations) :
    ComputeStats (r0 :: rest) = some
      [{ benchmark_name := r0.benchmark_name ++ "_mean",
         iterations := r0.iterations,
         real_accumulated_time :=
           (statOf perIterReal (r0 :: rest)).Mean * (r0.iterations : ℝ),
         cpu_accumulated_time :=
           (statOf perIterCpu (r0 :: rest)).Mean * (r0.iterations : ℝ),
         bytes_per_second :=
           (statOf (fun r => r.bytes_per_second) (r0 :: rest)).Mean,
         items_per_second :=
           (statOf (fun r => r.items_per_second) (r0 :: rest)).Mean,
         report_label :=
           if ∀ r ∈ r0 :: rest, r.report_label = r0.report_label then
             r0.report_label
           else "" },
       { benchmark_name := r0.benchmark_name ++ "_stddev",
         report_label :=
           if ∀ r ∈ r0 :: rest, r.report_label = r0.report_label then
             r0.report_label
           else "",
         iterations := 0,
         real_accumulated_time := (statOf perIterReal (r0 :: rest)).StdDev,
         cpu_accumulated_time := (statOf perIterCpu (r0 :: rest)).StdDev,
         bytes_per_second :=
           (statOf (fun r => r.bytes_per_second) (r0 :: rest)).StdDev,
         items_per_second :=
           (statOf (fun r => r.items_per_second) (r0 :: rest)).StdDev }] := by
  simp only [ComputeStats, if_neg hfloor, if_pos hsame]

/-- Claim C7 (amended): with at least two error-free records sharing name and
iteration count, `ComputeStats` folds each error-free record's per-iteration
real time, per-iteration CPU time, items/sec and bytes/sec into four
accumulators and emits a `_mean` record whose real and CPU times are the
accumulator means re-multiplied by the shared iteration count, followed by a
`_stddev` record carrying each accumulator's standard deviation; the worked
example `{real = 10, 20, 30 at iterations = 100}` yields mean real time
`0.2 * 100 = 20`. -/
theorem computeRepetitionStats_mean_stddev (r0 : Run) (rest : List Run)
    (hfloor : ¬((r0 :: rest).length -
        ((r0 :: rest).countP fun r => r.error_occurred) < 2))
    (hsame : ∀ r ∈ r0 :: rest,
      r0.benchmark_name = r.benchmark_name ∧ r0.iterations = r.iterations) :
    ComputeStats (r0 :: rest) = some
      [{ benchmark_name := r0.benchmark_name ++ "_mean",
         iterations := r0.iterations,
         real_accumulated_time :=
           (statOf perIterReal (r0 :: rest)).Mean * (r0.iterations : ℝ),
         cpu_accumulated_time :=
           (statOf perIterCpu (r0 :: rest)).Mean * (r0.iterations : ℝ),
         bytes_per_second :=
           (statOf (fun r => r.bytes_per_second) (r0 :: rest)).Mean,
         items_per_second :=
           (statOf (fun r => r.items_per_second) (r0 :: rest)).Mean,
         report_label :=
           if ∀ r ∈ r0 :: rest, r.report_label = r0.report_label then
             r0.report_label
           else "" },
       { benchmark_name := r0.benchmark_name ++ "_stddev",
         report_label :=
           if ∀ r ∈ r0 :: rest, r.report_label = r0.report_label then
             r0.report_label
           else "",
         iterations := 0,
         real_accumulated_time := (statOf perIterReal (r0 :: rest)).StdDev,
         cpu_accumulated_time := (statOf perIterCpu (r0 :: rest)).StdDev,
         bytes_per_second :=
           (statOf (fun r => r.bytes_per_second) (r0 :: rest)).StdDev,
         items_per_second :=
           (statOf (fun r => r.items_per_second) (r0 :: rest)).StdDev }] :=
  ComputeStats_cons_eq r0 rest hfloor hsame

/-- Counterexample to C7's worked example as stated: over repetitions
`{real = 10, 20, 30 at iterations = 100}` the `_mean` record's real time is
`20`, not `20 * 100`. -/
theorem computeRepetitionStats_example_value :
    ((((ComputeStats [repRun 10, repRun 20, repRun 30]).getD
          []).headI).real_accumulated_time = 20) ∧
      ¬((((ComputeStats [repRun 10, repRun 20, repRun 30]).getD
          []).headI).real_accumulated_time = 20 * 100) := by
  have hfloor : ¬([repRun 10, repRun 20, repRun 30].length -
      ([repRun 10, repRun 20, repRun 30].countP
        fun r => r.error_occurred) < 2) := by
    simp [repRun, List.countP_cons]
  have hsame : ∀ r ∈ [repRun 10, repRun 20, repRun 30],
      (repRun 10).benchmark_name = r.benchmark_name ∧
        (repRun 10).iterations = r.iterations := by
    simp [repRun]
  have heq := ComputeStats_cons_eq (repRun 10) [repRun 20, repRun 30]
    hfloor hsame
  have hmean : ((((ComputeStats [repRun 10, repRun 20, repRun 30]).getD
        []).headI).real_accumulated_time) = 20 := by
    rw [heq]
    show (statOf perIterReal [repRun 10, repRun 20, repRun 30]).Mean *
        (((repRun 10).iterations : ℤ) : ℝ) = 20
    simp only [statOf, perIterReal, repRun, List.filter, Stat1.combine,
      Stat1.Mean, List.foldl]
    norm_num
  exact ⟨hmean, by rw [hmean]; norm_num⟩

/-- Witness for C7 (amended) on the spec's worked example records. -/
theorem computeRepetitionStats_mean_stddev_witness :
    ((¬([repRun 10, repRun 20, repRun 30].length -
          ([repRun 10, repRun 20, repRun 30].countP
            fun r => r.error_occurred) < 2)) ∧
        (∀ r ∈ [repRun 10, repRun 20, repRun 30],
          (repRun 10).benchmark_name = r.benchmark_name ∧
            (repRun 10).iterations = r.iterations)) ∧
      ComputeStats [repRun 10, repRun 20, repRun 30] = some
        [{ benchmark_name := (repRun 10).benchmark_name ++ "_mean",
           iterations := (repRun 10).iterations,
           real_accumulated_time :=
             (statOf perIterReal [repRun 10, repRun 20, repRun 30]).Mean *
               ((repRun 10).iterations : ℝ),
           cpu_accumulated_time :=
             (statOf perIterCpu [repRun 10, repRun 20, repRun 30]).Mean *
               ((repRun 10).iterations : ℝ),
           bytes_per_second :=
             (statOf (fun r => r.bytes_per_second)
               [repRun 10, repRun 20, repRun 30]).Mean,
           items_per_second :=
             (statOf (fun r => r.items_per_second)
               [repRun 10, repRun 20, repRun 30]).Mean,
           report_label :=
             if ∀ r ∈ [repRun 10, repRun 20, repRun 30],
                 r.report_label = (repRun 10).report_label then
               (repRun 10).report_label
             else "" },
         { benchmark_name := (repRun 10).benchmark_name ++ "_stddev",
           report_label :=
             if ∀ r ∈ [repRun 10, repRun 20, repRun 30],
                 r.report_label = (repRun 10).report_label then
               (repRun 10).report_label
             else "",
           iterations := 0,
           real_accumulated_time :=
             (statOf perIterReal [repRun 10, repRun 20, repRun 30]).StdDev,
           cpu_accumulated_time :=
             (statOf perIterCpu [repRun 10, repRun 20, repRun 30]).StdDev,
           bytes_per_second :=
             (statOf (fun r => r.bytes_per_second)
               [repRun 10, repRun 20, repRun 30]).StdDev,
           items_per_second :=
             (statOf (fun r => r.items_per_second)
               [repRun 10, repRun 20, repRun 30]).StdDev }] :=
  ⟨⟨by simp [repRun, List.countP_cons], by simp [repRun]⟩,
    computeRepetitionStats_mean_stddev (repRun 10) [repRun 20, repRun 30]
      (by simp [repRun, List.countP_cons]) (by simp [repRun])⟩

/-- Counterexample to C8 as stated: `ComputeBigO` performs no benchmark-name
or iteration-count check — two records differing in both are aggregated
without any contract failure. -/
theorem aggregation_mismatch_ignored_by_bigO :
    mmA.benchmark_name ≠ mmB.benchmark_name ∧
      mmA.iterations ≠ mmB.iterations ∧
      ComputeBigO [mmA, mmB] ≠ none := by
  refine ⟨by simp [mmA, mmB], by simp [mmA, mmB], ?_⟩
  have hcpu : MinimalLeastSq ([mmA, mmB].map fun r => r.complexity_n)
      ([mmA, mmB].map perIterCpu) mmA.complexity =
        some (taggedFit ([mmA, mmB].map fun r => r.complexity_n)
          ([mmA, mmB].map perIterCpu) BigO.o1) := by
    show MinimalLeastSq _ _ BigO.o1 = _
    rw [MinimalLeastSq, if_pos ⟨by simp, by simp, by decide⟩,
      if_neg (by decide)]
  have hreal : MinimalLeastSq ([mmA, mmB].map fun r => r.complexity_n)
      ([mmA, mmB].map perIterReal)
      ((taggedFit ([mmA, mmB].map fun r => r.complexity_n)
          ([mmA, mmB].map perIterCpu) BigO.o1).complexity) =
        some (taggedFit ([mmA, mmB].map fun r => r.complexity_n)
          ([mmA, mmB].map perIterReal) BigO.o1) := by
    show MinimalLeastSq _ _ BigO.o1 = _
    rw [MinimalLeastSq, if_pos ⟨by simp, by simp, by decide⟩,
      if_neg (by decide)]
  have h1 : ¬([mmA, mmB] : List Run).length < 2 := by simp
  simp only [ComputeBigO, if_neg h1, hcpu, hreal]
  simp

/-- Claim C8 (amended): `ComputeStats` treats records that do not all share
the first record's benchmark name and iteration count as a contract failure
(once at least two error-free records put it past the early empty return);
`ComputeBigO` performs no such check. -/
theorem aggregation_mismatch_aborts_stats (r0 : Run) (rest : List Run)
    (hfloor : ¬((r0 :: rest).length -
        ((r0 :: rest).countP fun r => r.error_occurred) < 2))
    (hbad : ¬∀ r ∈ r0 :: rest,
      r0.benchmark_name = r.benchmark_name ∧ r0.iterations = r.iterations) :
    ComputeStats (r0 :: rest) = none := by
  simp only [ComputeStats, if_neg hfloor, if_neg hbad]

/-- Witness for C8 (amended) on two records named "A" and "B". -/
theorem aggregation_mismatch_aborts_stats_witness :
    ((¬([mmA, mmB].length -
          ([mmA, mmB].countP fun r => r.error_occurred) < 2)) ∧
        ¬∀ r ∈ [mmA, mmB],
          mmA.benchmark_name = r.benchmark_name ∧
            mmA.iterations = r.iterations) ∧
      ComputeStats [mmA, mmB] = none :=
  ⟨⟨by simp [mmA, mmB, List.countP_cons], by simp [mmA, mmB]⟩,
    aggregation_mismatch_aborts_stats mmA [mmB]
      (by simp [mmA, mmB, List.countP_cons]) (by simp [mmA, mmB])⟩

/-! ### Noiseless data recovery -/

theorem zip_map_self (f : ℤ → ℝ) (h : ℤ × ℝ → ℝ) (n : List ℤ) :
    (n.zip (n.map f)).map h = n.map fun x => h (x, f x) := by
  induction n with
  | nil => rfl
  | cons x xs ih => simp [ih]

/-- Claim C9: fitting any curve `g` against noiseless data
`time_i = c0 * g(n_i)` recovers the coefficient `c0` exactly and yields
normalized RMS exactly `0`, provided at least two points, a nonzero
`Σ g(n_i)²` and a nonzero mean time. -/
theorem fit_noiseless_exact (g : ℤ → ℝ) (c0 : ℝ) (n : List ℤ)
    (h2 : 2 ≤ n.length)
    (hg : (n.map fun x => g x * g x).sum ≠ 0)
    (hm : (n.map fun x => c0 * g x).sum ≠ 0) :
    (CalculateLeastSq n (n.map fun x => c0 * g x) g).coef = c0 ∧
      (CalculateLeastSq n (n.map fun x => c0 * g x) g).rms = 0 := by
  have hcoef : (CalculateLeastSq n (n.map fun x => c0 * g x) g).coef = c0 := by
    rw [CalculateLeastSq_coef,
      zip_map_self (fun x => c0 * g x) (fun p => p.2 * g p.1) n,
      zip_map_self (fun x => c0 * g x) (fun p => g p.1 * g p.1) n]
    have hbody : (n.map fun x => c0 * g x * g x) =
        n.map fun x => c0 * (g x * g x) := by
      simp only [mul_assoc]
    rw [hbody, List.sum_map_mul_left, mul_div_assoc, div_self hg, mul_one]
  refine ⟨hcoef, ?_⟩
  rw [CalculateLeastSq_rms, hcoef]
  have hzero : ((n.zip (n.map fun x => c0 * g x)).map fun p =>
      (p.2 - c0 * g p.1) ^ 2).sum = 0 := by
    rw [zip_map_self (fun x => c0 * g x) (fun p => (p.2 - c0 * g p.1) ^ 2) n]
    have hconst : (n.map fun x => (c0 * g x - c0 * g x) ^ 2) =
        n.map fun _ => (0 : ℝ) := by
      simp
    rw [hconst]
    simp
  rw [hzero]
  simp

/-- Witness for C9 at `n = [1, 2]`, `g x = x`, `c0 = 2`. -/
theorem fit_noiseless_exact_witness :
    (2 ≤ wN.length ∧ (wN.map fun x => wG x * wG x).sum ≠ 0 ∧
        (wN.map fun x => (2 : ℝ) * wG x).sum ≠ 0) ∧
      ((CalculateLeastSq wN (wN.map fun x => (2 : ℝ) * wG x) wG).coef = 2 ∧
        (CalculateLeastSq wN (wN.map fun x => (2 : ℝ) * wG x) wG).rms = 0) :=
  ⟨⟨by simp [wN], by norm_num [wN, wG], by norm_num [wN, wG]⟩,
    fit_noiseless_exact wG 2 wN (by simp [wN]) (by norm_num [wN, wG])
      (by norm_num [wN, wG])⟩

/-! ### ComputeBigO does not filter error records -/

theorem ComputeBigO_cpu_head (r0 r1 : Run) (hc : r0.complexity ≠ BigO.oNone)
    (ha : r0.complexity ≠ BigO.oAuto) :
    (((ComputeBigO [r0, r1]).getD []).headI).cpu_accumulated_time =
      (CalculateLeastSq ([r0, r1].map fun r => r.complexity_n)
        ([r0, r1].map perIterCpu) (FittingCurve r0.complexity)).coef := by
  have hcpu : MinimalLeastSq ([r0, r1].map fun r => r.complexity_n)
      ([r0, r1].map perIterCpu) r0.complexity =
        some (taggedFit ([r0, r1].map fun r => r.complexity_n)
          ([r0, r1].map perIterCpu) r0.complexity) := by
    rw [MinimalLeastSq, if_pos ⟨by simp, by simp, hc⟩, if_neg ha]
  obtain ⟨rr, hrr⟩ : ∃ rr,
      MinimalLeastSq ([r0, r1].map fun r => r.complexity_n)
        ([r0, r1].map perIterReal)
        ((taggedFit ([r0, r1].map fun r => r.complexity_n)
          ([r0, r1].map perIterCpu) r0.complexity).complexity) = some rr := by
    cases hopt : MinimalLeastSq ([r0, r1].map fun r => r.complexity_n)
        ([r0, r1].map perIterReal)
        ((taggedFit ([r0, r1].map fun r => r.complexity_n)
          ([r0, r1].map perIterCpu) r0.complexity).complexity) with
    | none =>
        have hproj : (taggedFit ([r0, r1].map fun r => r.complexity_n)
            ([r0, r1].map perIterCpu) r0.complexity).complexity =
              r0.complexity := rfl
        rw [hproj] at hopt
        exact absurd ((MinimalLeastSq_none_iff _ _ _).1 hopt)
          fun hneg => hneg ⟨by simp, by simp, hc⟩
    | some rr => exact ⟨rr, rfl⟩
  have hlt : ¬([r0, r1] : List Run).length < 2 := by simp
  simp only [ComputeBigO, if_neg hlt, hcpu, hrr]
  rfl

/-- Claim C10: `ComputeBigO` does not filter error-flagged records: its
result is unchanged by arbitrary rewrites of every record's error flag, and
an error-flagged record's input-size tag does change the fitted coefficient
(two inputs differing only in an errored record's size tag produce different
CPU coefficients), unlike `ComputeStats`, which skips errored records. -/
theorem computeComplexity_no_error_filter :
    (∀ (reports : List Run) (f : Run → Bool),
        ComputeBigO (reports.map fun r => { r with error_occurred := f r }) =
          ComputeBigO reports) ∧
      (((ComputeBigO [c10a, c10err2]).getD []).headI).cpu_accumulated_time ≠
        (((ComputeBigO [c10a, c10err3]).getD []).headI).cpu_accumulated_time
      := by
  constructor
  · intro reports f
    cases reports with
    | nil => rfl
    | cons r0 rest =>
        have hfun1 : ((fun r : Run => r.complexity_n) ∘ fun r : Run =>
            { r with error_occurred := f r }) =
              fun r : Run => r.complexity_n := by
          funext r
          rfl
        have hfun2 : (perIterCpu ∘ fun r : Run =>
            { r with error_occurred := f r }) = perIterCpu := by
          funext r
          rfl
        have hfun3 : (perIterReal ∘ fun r : Run =>
            { r with error_occurred := f r }) = perIterReal := by
          funext r
          rfl
        have hr0c : perIterCpu { r0 with error_occurred := f r0 } =
            perIterCpu r0 := rfl
        have hr0r : perIterReal { r0 with error_occurred := f r0 } =
            perIterReal r0 := rfl
        simp [ComputeBigO, List.map_map, hfun1, hfun2, hfun3, hr0c, hr0r]
  · have e2 : (((ComputeBigO [c10a, c10err2]).getD
        []).headI).cpu_accumulated_time = 1 := by
      rw [ComputeBigO_cpu_head c10a c10err2 (by simp [c10a]) (by simp [c10a]),
        CalculateLeastSq_coef]
      simp [c10a, c10err2, perIterCpu, FittingCurve]
      norm_num
    have e3 : (((ComputeBigO [c10a, c10err3]).getD
        []).headI).cpu_accumulated_time = 7 / 10 := by
      rw [ComputeBigO_cpu_head c10a c10err3 (by simp [c10a]) (by simp [c10a]),
        CalculateLeastSq_coef]
      simp [c10a, c10err3, perIterCpu, FittingCurve]
      norm_num
    rw [e2, e3]
    norm_num

end Complexity
